import Mathlib

set_option maxRecDepth 16000

/-!
Verification of the serverless-image-handler request-decoding pipeline and the
custom-resource Lambda handler.

The image-request pipeline (PathCodec, SecurityValidator, EditsNormalizer,
RequestAssembler) is embedded at the byte level: request strings such as
bucket names and keys are modelled as lists of bytes (natural numbers below
256).  The custom-resource handler is embedded directly from the source file,
with external AWS calls abstracted as an environment mapping each action to
its outcome.
-/

/-- A byte string: every element is a byte value below 256. -/
def ByteOk (bs : List Nat) : Prop := ∀ b ∈ bs, b < 256

instance : DecidablePred ByteOk := fun bs => by
  unfold ByteOk; infer_instance

/-- Byte values of the characters of an ASCII string literal. -/
def strBytes (s : String) : List Nat := s.data.map Char.toNat

/-! ## Base64 codec (standard alphabet with padding) -/

/-- Value of a base64 alphabet character, `none` for characters outside the alphabet. -/
def b64val (c : Char) : Option Nat :=
  let n := c.toNat
  if 65 ≤ n ∧ n ≤ 90 then some (n - 65)
  else if 97 ≤ n ∧ n ≤ 122 then some (n - 97 + 26)
  else if 48 ≤ n ∧ n ≤ 57 then some (n - 48 + 52)
  else if n = 43 then some 62
  else if n = 47 then some 63
  else none

/-- Base64 alphabet character for a sextet value. -/
def b64tbl (n : Nat) : Char :=
  if n < 26 then Char.ofNat (65 + n)
  else if n < 52 then Char.ofNat (97 + (n - 26))
  else if n < 62 then Char.ofNat (48 + (n - 52))
  else if n = 62 then '+' else '/'

/-- Base64-encode a byte sequence, emitting `=` padding for 1- and 2-byte tails. -/
def b64enc : List Nat → List Char
  | [] => []
  | [a] => [b64tbl (a / 4), b64tbl (a % 4 * 16), '=', '=']
  | [a, b] => [b64tbl (a / 4), b64tbl (a % 4 * 16 + b / 16), b64tbl (b % 16 * 4), '=']
  | a :: b :: c :: rest =>
    b64tbl (a / 4) :: b64tbl (a % 4 * 16 + b / 16) :: b64tbl (b % 16 * 4 + c / 64) ::
      b64tbl (c % 64) :: b64enc rest

/-- Base64-decode a character sequence; requires whole quads with optional
trailing `=` padding, as produced by standard encoders. -/
def b64dec : List Char → Option (List Nat)
  | [] => some []
  | c1 :: c2 :: c3 :: c4 :: rest =>
    match b64val c1, b64val c2 with
    | some v1, some v2 =>
      if c3 = '=' then
        if c4 = '=' ∧ rest = [] then some [v1 * 4 + v2 / 16] else none
      else
        match b64val c3 with
        | some v3 =>
          if c4 = '=' then
            if rest = [] then some [v1 * 4 + v2 / 16, v2 % 16 * 16 + v3 / 4] else none
          else
            match b64val c4 with
            | some v4 =>
              match b64dec rest with
              | some bs =>
                some ((v1 * 4 + v2 / 16) :: (v2 % 16 * 16 + v3 / 4) :: (v3 % 4 * 64 + v4) :: bs)
              | none => none
            | none => none
        | none => none
    | _, _ => none
  | _ => none

/-! ## JSON at the byte level

`JSON.stringify` / `JSON.parse` over UTF-8 bytes, restricted to the value
shapes the image handler exchanges: strings, non-negative integers, booleans,
null and objects. -/

inductive JVal where
  | jstr (s : List Nat)
  | jnum (n : Nat)
  | jbool (b : Bool)
  | jnull
  | jobj (entries : List (List Nat × JVal))

/-- Byte-level JSON escaping of one byte of string content, as `JSON.stringify`
performs it: quote and backslash get a backslash escape, the common control
characters get their short escapes, other control bytes get `\u00XX`. -/
def escapeByte (b : Nat) : List Nat :=
  if b = 34 then [92, 34]
  else if b = 92 then [92, 92]
  else if b = 8 then [92, 98]
  else if b = 9 then [92, 116]
  else if b = 10 then [92, 110]
  else if b = 12 then [92, 102]
  else if b = 13 then [92, 114]
  else if b < 32 then [92, 117, 48, 48, hexDigitByte (b / 16), hexDigitByte (b % 16)]
  else [b]
where
  hexDigitByte (n : Nat) : Nat := if n < 10 then 48 + n else 87 + n

/-- Byte-level JSON escaping of string content. -/
def escapeBytes : List Nat → List Nat
  | [] => []
  | b :: rest => escapeByte b ++ escapeBytes rest

/-- Value of a hexadecimal digit byte. -/
def hexVal (b : Nat) : Option Nat :=
  if 48 ≤ b ∧ b ≤ 57 then some (b - 48)
  else if 97 ≤ b ∧ b ≤ 102 then some (b - 97 + 10)
  else if 65 ≤ b ∧ b ≤ 70 then some (b - 65 + 10)
  else none

/-- Single-character JSON escapes. -/
def escCode (b : Nat) : Option Nat :=
  if b = 34 then some 34
  else if b = 92 then some 92
  else if b = 47 then some 47
  else if b = 98 then some 8
  else if b = 116 then some 9
  else if b = 110 then some 10
  else if b = 102 then some 12
  else if b = 114 then some 13
  else none

/-- State of the JSON string scanner: inside plain content, after a
backslash, or inside a `\uXXXX` escape with the hex digits read so far. -/
inductive JStrState where
  | normal
  | esc
  | hex0
  | hex1 (a : Nat)
  | hex2 (a b : Nat)
  | hex3 (a b c : Nat)

/-- Scanner for JSON string content after the opening quote: unescapes the
body and returns it with the input remaining after the closing quote. -/
def parseJStrAux : List Nat → JStrState → Option (List Nat × List Nat)
  | [], _ => none
  | b :: rest, JStrState.normal =>
    if b = 34 then some ([], rest)
    else if b = 92 then parseJStrAux rest JStrState.esc
    else if 32 ≤ b then
      match parseJStrAux rest JStrState.normal with
      | some (s, r) => some (b :: s, r)
      | none => none
    else none
  | b :: rest, JStrState.esc =>
    if b = 117 then parseJStrAux rest JStrState.hex0
    else
      match escCode b with
      | some c =>
        match parseJStrAux rest JStrState.normal with
        | some (s, r) => some (c :: s, r)
        | none => none
      | none => none
  | b :: rest, JStrState.hex0 =>
    match hexVal b with
    | some a => parseJStrAux rest (JStrState.hex1 a)
    | none => none
  | b :: rest, JStrState.hex1 a =>
    match hexVal b with
    | some c => parseJStrAux rest (JStrState.hex2 a c)
    | none => none
  | b :: rest, JStrState.hex2 a c =>
    match hexVal b with
    | some d => parseJStrAux rest (JStrState.hex3 a c d)
    | none => none
  | b :: rest, JStrState.hex3 a c d =>
    match hexVal b with
    | some e =>
      if a * 4096 + c * 256 + d * 16 + e < 128 then
        match parseJStrAux rest JStrState.normal with
        | some (s, r) => some ((a * 4096 + c * 256 + d * 16 + e) :: s, r)
        | none => none
      else none
    | none => none

/-- Parse JSON string content after the opening quote. -/
def parseJStr (input : List Nat) : Option (List Nat × List Nat) :=
  parseJStrAux input JStrState.normal

/-- Skip JSON whitespace bytes. -/
def skipWs : List Nat → List Nat
  | [] => []
  | b :: rest => if b = 32 ∨ b = 9 ∨ b = 10 ∨ b = 13 then skipWs rest else b :: rest

/-- Accumulate a run of decimal digit bytes. -/
def parseNumAux : List Nat → Nat → Nat × List Nat
  | [], acc => (acc, [])
  | b :: rest, acc =>
    if 48 ≤ b ∧ b ≤ 57 then parseNumAux rest (acc * 10 + (b - 48)) else (acc, b :: rest)

mutual

/-- Fueled JSON value parser over bytes. -/
def parseVal : Nat → List Nat → Option (JVal × List Nat)
  | 0, _ => none
  | fuel + 1, input =>
    match skipWs input with
    | [] => none
    | b :: rest =>
      if b = 34 then
        match parseJStr rest with
        | some (s, r) => some (JVal.jstr s, r)
        | none => none
      else if b = 123 then
        match skipWs rest with
        | 125 :: r2 => some (JVal.jobj [], r2)
        | _ =>
          match parseMembers fuel (skipWs rest) with
          | some (es, r) => some (JVal.jobj es, r)
          | none => none
      else if b = 116 then
        match rest with
        | 114 :: 117 :: 101 :: r => some (JVal.jbool true, r)
        | _ => none
      else if b = 102 then
        match rest with
        | 97 :: 108 :: 115 :: 101 :: r => some (JVal.jbool false, r)
        | _ => none
      else if b = 110 then
        match rest with
        | 117 :: 108 :: 108 :: r => some (JVal.jnull, r)
        | _ => none
      else if 48 ≤ b ∧ b ≤ 57 then
        let (n, r) := parseNumAux rest (b - 48)
        some (JVal.jnum n, r)
      else none

/-- Fueled parser for the members of a JSON object, after the opening brace
of a non-empty object. -/
def parseMembers : Nat → List Nat → Option (List (List Nat × JVal) × List Nat)
  | 0, _ => none
  | fuel + 1, input =>
    match skipWs input with
    | [] => none
    | b :: rest =>
      if b = 34 then
        match parseJStr rest with
        | some (key, r1) =>
          match skipWs r1 with
          | 58 :: r2 =>
            match parseVal fuel r2 with
            | some (v, r3) =>
              match skipWs r3 with
              | 44 :: r4 =>
                match parseMembers fuel r4 with
                | some (es, r) => some ((key, v) :: es, r)
                | none => none
              | 125 :: r4 => some ([(key, v)], r4)
              | _ => none
            | none => none
          | _ => none
        | none => none
      else none

end

/-- Parse a whole byte sequence as one JSON value. -/
def jsonParse (bs : List Nat) : Option JVal :=
  match parseVal (2 * bs.length + 2) bs with
  | some (v, r) => if skipWs r = [] then some v else none
  | none => none

/-- Bytes of `JSON.stringify` applied to the two-field object holding the
given bucket and key byte strings, in that insertion order. -/
def encJson (bucket key : List Nat) : List Nat :=
  123 :: 34 :: 98 :: 117 :: 99 :: 107 :: 101 :: 116 :: 34 :: 58 :: 34 ::
    (escapeBytes bucket ++ 34 :: 44 :: 34 :: 107 :: 101 :: 121 :: 34 :: 58 :: 34 ::
      (escapeBytes key ++ [34, 125]))

example : jsonParse (strBytes ("\x7b\"a\":\"b\"\x7d")) =
    some (JVal.jobj [([97], JVal.jstr [98])]) := by rfl

example : b64dec (b64enc [1, 2, 3, 4]) = some [1, 2, 3, 4] := by rfl
example : b64dec ("eyJidWNrZXQiOiIiLCJrZXkiOiIifQ==".data) = some (encJson [] []) := by rfl

/-! ## Image request data model

Modelled from the spec: the image-request decoding and validation pipeline
(`ImageRequest.decodeRequest` / `ImageRequest.setup`) is not part of the
sources available here — only its unit tests are — so PathCodec,
SecurityValidator, EditsNormalizer and RequestAssembler are modelled from the
specification's component contracts. -/

/-- Error taxonomy of the pipeline (spec section 7). -/
inductive ImgError where
  | CannotReadPath
  | CannotDecodeRequest
  | SignatureMissing
  | SignatureMismatch
  | ImageRequestExpiryFormat
  | ImageRequestExpired
  | InvalidEditParameter
  | SecretUnavailable
  | ImageBucket
  deriving DecidableEq

/-- HTTP status surfaced for an error kind: client errors are BAD_REQUEST,
secret-store failures are server errors. -/
def surfacedStatus : ImgError → Nat
  | .SecretUnavailable => 500
  | _ => 400

/-- Error code string surfaced for an error kind. -/
def surfacedCode : ImgError → String
  | .CannotReadPath => "DecodeRequest::CannotReadPath"
  | .CannotDecodeRequest => "DecodeRequest::CannotDecodeRequest"
  | .SignatureMissing => "SignatureMissing"
  | .SignatureMismatch => "SignatureMismatch"
  | .ImageRequestExpiryFormat => "ImageRequestExpiryFormat"
  | .ImageRequestExpired => "ImageRequestExpired"
  | .InvalidEditParameter => "InvalidEditParameter"
  | .SecretUnavailable => "SecretUnavailable"
  | .ImageBucket => "ImageBucket"

/-- Request shape variant, determined solely from the path shape. -/
inductive RequestType where
  | default
  | thumbor
  | custom
  deriving DecidableEq

/-- Raw edits carried by a decoded request: the verbatim `edits` mapping of a
Default request, or the leading path tokens of a Thumbor/Custom request. -/
inductive RawEdits where
  | mapping (m : List (List Nat × JVal))
  | tokens (t : List String)

/-- Intermediate result of PathCodec. -/
structure RawRequest where
  bucket : List Nat
  key : List Nat
  requestType : RequestType
  rawEdits : RawEdits

/-- Optional query parameters of an inbound event. -/
structure QueryParams where
  signature : Option String := none
  expires : Option String := none

/-- Inbound event: path plus optional query parameters and headers. -/
structure ImageHandlerEvent where
  path : Option String := none
  queryStringParameters : Option QueryParams := none
  acceptHeader : Option String := none

/-- The `expires` query parameter of an event, when present. -/
def ImageHandlerEvent.expiresParam (e : ImageHandlerEvent) : Option String :=
  match e.queryStringParameters with
  | some q => q.expires
  | none => none

/-- The `signature` query parameter of an event, when present. -/
def ImageHandlerEvent.signatureParam (e : ImageHandlerEvent) : Option String :=
  match e.queryStringParameters with
  | some q => q.signature
  | none => none

/-! ## PathCodec -/

/-- Strip a single leading slash. -/
def stripLeadingSlash : List Char → List Char
  | [] => []
  | c :: rest => if c = '/' then rest else c :: rest

/-- Byte names of the JSON fields the decoder inspects. -/
def bucketName : List Nat := [98, 117, 99, 107, 101, 116]

def keyName : List Nat := [107, 101, 121]

def editsName : List Nat := [101, 100, 105, 116, 115]

/-- First entry of a JSON object with the given name. -/
def lookupEntry : List (List Nat × JVal) → List Nat → Option JVal
  | [], _ => none
  | (k, v) :: rest, name => if k = name then some v else lookupEntry rest name

/-- A string-valued field of a JSON object. -/
def lookupStr (entries : List (List Nat × JVal)) (name : List Nat) : Option (List Nat) :=
  match lookupEntry entries name with
  | some (JVal.jstr s) => some s
  | _ => none

/-- An object-valued field of a JSON object, defaulting to the empty mapping. -/
def lookupObjD (entries : List (List Nat × JVal)) (name : List Nat) : List (List Nat × JVal) :=
  match lookupEntry entries name with
  | some (JVal.jobj m) => m
  | _ => []

/-- Modelled from the spec: the Default strategy of PathCodec — if the path is
valid base64 and decodes to a JSON object yielding a non-empty `bucket` and
`key`, classify as Default and extract both plus the optional `edits` object
verbatim. -/
def tryBase64Json (cs : List Char) : Option RawRequest :=
  match b64dec cs with
  | none => none
  | some bytes =>
    match jsonParse bytes with
    | some (JVal.jobj entries) =>
      match lookupStr entries bucketName, lookupStr entries keyName with
      | some b, some k =>
        if b ≠ [] ∧ k ≠ [] then
          some { bucket := b, key := k, requestType := RequestType.default,
                 rawEdits := RawEdits.mapping (lookupObjD entries editsName) }
        else none
      | _, _ => none
    | _ => none

/-- Split a character sequence on slashes. -/
def splitSlashAux : List Char → List Char → List String
  | [], acc => [String.mk acc.reverse]
  | c :: rest, acc =>
    if c = '/' then String.mk acc.reverse :: splitSlashAux rest [] else splitSlashAux rest (c :: acc)

def splitSlash (cs : List Char) : List String := splitSlashAux cs []

/-- Does one list start with the other? -/
def listStartsWith : List Char → List Char → Bool
  | [], _ => true
  | _ :: _, [] => false
  | p :: ps, c :: cs => p = c && listStartsWith ps cs

/-- A Thumbor size token: digits, `x`, digits. -/
def isSizeTok (s : String) : Bool :=
  let w := s.data.takeWhile fun c => c.isDigit
  match s.data.drop w.length with
  | 'x' :: h => !w.isEmpty && !h.isEmpty && h.all fun c => c.isDigit
  | _ => false

/-- A Thumbor filter token, prefixed by the `filters:` keyword. -/
def isFilterTok (s : String) : Bool := listStartsWith ("filters:".data) s.data

/-- A recognized Thumbor token. -/
def isThumborTok (s : String) : Bool :=
  s = "fit-in" || s = "smart" || isFilterTok s || isSizeTok s

/-- A parenthesized function-call token of the Custom filter DSL. -/
def isParenCallTok (s : String) : Bool :=
  let name := s.data.takeWhile fun c => c ≠ '('
  match s.data.drop name.length with
  | '(' :: more => !name.isEmpty && more.getLast? = some ')'
  | _ => false

/-- A leading path segment treated as an edit token. -/
def isEditTok (s : String) : Bool := isThumborTok s || isParenCallTok s

/-- Modelled from the spec: the segmented strategy of PathCodec — a leading
run of edit tokens followed by exactly the two segments `bucket` and `key`;
classified as Thumbor when every edit token is from the recognized Thumbor
vocabulary, as Custom otherwise. -/
def segmentedParse (cs : List Char) : Option RawRequest :=
  let segs := splitSlash cs
  let edits := segs.takeWhile isEditTok
  match segs.drop edits.length with
  | [b, k] =>
    if b ≠ "" ∧ k ≠ "" then
      some { bucket := strBytes b, key := strBytes k,
             requestType := if edits.all isThumborTok then RequestType.thumbor
                            else RequestType.custom,
             rawEdits := RawEdits.tokens edits }
    else none
  | _ => none

/-- Modelled from the spec: `PathCodec.decode` — requires a non-empty path
after stripping a single leading slash (else `CannotReadPath`), attempts the
base64/JSON strategy, falls back to segmented parsing, and fails with
`CannotDecodeRequest` when neither yields a non-empty bucket and key. -/
def decodeRequest (event : ImageHandlerEvent) : Except ImgError RawRequest :=
  match event.path with
  | none => Except.error ImgError.CannotReadPath
  | some p =>
    let rel := stripLeadingSlash p.data
    if rel = [] then Except.error ImgError.CannotReadPath
    else
      match tryBase64Json rel with
      | some raw => Except.ok raw
      | none =>
        match segmentedParse rel with
        | some raw => Except.ok raw
        | none => Except.error ImgError.CannotDecodeRequest

example :
    decodeRequest { path := some ("/eyJidWNrZXQiOiJidWNrZXQtbmFtZS1oZXJlIiwia2V5Ijoia2V5LW5hbWUtaGVyZSJ9") } =
      Except.ok { bucket := strBytes ("bucket-name-here"), key := strBytes ("key-name-here"),
                  requestType := RequestType.default, rawEdits := RawEdits.mapping [] } := by rfl

example :
    decodeRequest { path := some ("/someNonBase64EncodedContentHere") } =
      Except.error ImgError.CannotDecodeRequest := by rfl

/-! ## SecurityValidator: expiry -/

/-- Gregorian leap-year rule. -/
def isLeap (y : Nat) : Bool := y % 4 = 0 && (y % 100 ≠ 0 || y % 400 = 0)

/-- Length of a calendar month. -/
def daysInMonth (y m : Nat) : Nat :=
  if m = 1 ∨ m = 3 ∨ m = 5 ∨ m = 7 ∨ m = 8 ∨ m = 10 ∨ m = 12 then 31
  else if m = 2 then (if isLeap y then 29 else 28)
  else 30

def daysInYear (y : Nat) : Nat := if isLeap y then 366 else 365

/-- Days from 1970-01-01 to the start of year `y` (for `y ≥ 1970`). -/
def daysBeforeYear (y : Nat) : Nat :=
  ((List.range (y - 1970)).map fun i => daysInYear (1970 + i)).sum

/-- Days from the start of the year to the start of month `m`. -/
def daysBeforeMonth (y m : Nat) : Nat :=
  ((List.range (m - 1)).map fun i => daysInMonth y (i + 1)).sum

/-- Seconds from the Unix epoch to the given UTC date and time. -/
def toTimestamp (y mo d h mi s : Nat) : Nat :=
  (daysBeforeYear y + daysBeforeMonth y mo + (d - 1)) * 86400 + h * 3600 + mi * 60 + s

def num2 (a b : Char) : Nat := (a.toNat - 48) * 10 + (b.toNat - 48)

def num4 (a b c d : Char) : Nat := num2 a b * 100 + num2 c d

/-- Split a 16-character `YYYYMMDDTHHMMSSZ` value into its numeric fields;
fails on any wrong length, non-digit, wrong separator or missing `Z`. -/
def parseExpiryFields (s : String) : Option (Nat × Nat × Nat × Nat × Nat × Nat) :=
  match s.data with
  | [y1, y2, y3, y4, mo1, mo2, d1, d2, t, h1, h2, mi1, mi2, s1, s2, z] =>
    if t = 'T' && z = 'Z' &&
        [y1, y2, y3, y4, mo1, mo2, d1, d2, h1, h2, mi1, mi2, s1, s2].all Char.isDigit then
      some (num4 y1 y2 y3 y4, num2 mo1 mo2, num2 d1 d2, num2 h1 h2, num2 mi1 mi2, num2 s1 s2)
    else none
  | _ => none

/-- Modelled from the spec: whether an `expires` value matches the fixed
pattern `YYYYMMDDTHHMMSSZ` with a valid calendar month/day and time of day. -/
def matchesExpiryFormat (s : String) : Bool :=
  match parseExpiryFields s with
  | some (y, mo, d, h, mi, sec) =>
    decide (1 ≤ mo ∧ mo ≤ 12 ∧ 1 ≤ d ∧ d ≤ daysInMonth y mo ∧ h ≤ 23 ∧ mi ≤ 59 ∧ sec ≤ 59)
  | none => false

/-- Timestamp denoted by a well-formed `expires` value. -/
def expiryTimestamp (s : String) : Nat :=
  match parseExpiryFields s with
  | some (y, mo, d, h, mi, sec) => toTimestamp y mo d h mi sec
  | none => 0

/-- Modelled from the spec: the expiry check of SecurityValidator, applied
whenever an `expires` parameter is present.  A malformed value fails with
`ImageRequestExpiryFormat`; a well-formed value not strictly later than the
current time fails with `ImageRequestExpired`; otherwise the check passes. -/
def checkExpiry (s : String) (now : Nat) : Option ImgError :=
  if matchesExpiryFormat s then
    if expiryTimestamp s ≤ now then some ImgError.ImageRequestExpired else none
  else some ImgError.ImageRequestExpiryFormat

/-! ## EditsNormalizer -/

/-- One normalized edit operation, remembering its source token. -/
structure Edit where
  src : String
  op : String
  args : String
  deriving DecidableEq

/-- Outcome of classifying one path token. -/
inductive TokResult where
  | skip
  | invalid (e : ImgError)
  | edit (ed : Edit)

/-- Digits of a token as a number. -/
def digitsToNat? (cs : List Char) : Option Nat :=
  if !cs.isEmpty && cs.all (fun c => c.isDigit) then
    some (cs.foldl (fun acc c => acc * 10 + (c.toNat - 48)) 0)
  else none

def filterNameOf (s : String) : String :=
  String.mk ((s.data.drop 8).takeWhile fun c => c ≠ '(')

def filterArgsOf (s : String) : String :=
  String.mk ((((s.data.drop 8).dropWhile fun c => c ≠ '(').drop 1).takeWhile fun c => c ≠ ')')

def knownFilters : List String :=
  ["grayscale", "blur", "quality", "format", "rotate", "upscale", "watermark", "strip_exif"]

/-- Modelled from the spec: classification of one Thumbor path token —
recognized tokens become structured operations with range-checked parameters
(quality must lie in 1..100), unrecognized tokens are dropped. -/
def classifyThumborTok (s : String) : TokResult :=
  if s = "fit-in" then TokResult.edit { src := s, op := "fit-in", args := "" }
  else if s = "smart" then TokResult.edit { src := s, op := "smart", args := "" }
  else if isSizeTok s then TokResult.edit { src := s, op := "resize", args := s }
  else if isFilterTok s then
    if filterNameOf s = "quality" then
      match digitsToNat? (filterArgsOf s).data with
      | some q =>
        if 1 ≤ q ∧ q ≤ 100 then
          TokResult.edit { src := s, op := filterNameOf s, args := filterArgsOf s }
        else TokResult.invalid ImgError.InvalidEditParameter
      | none => TokResult.invalid ImgError.InvalidEditParameter
    else if filterNameOf s ∈ knownFilters then
      TokResult.edit { src := s, op := filterNameOf s, args := filterArgsOf s }
    else TokResult.skip
  else TokResult.skip

def numericCustomOps : List String := ["quality", "blur", "rotate"]

/-- Characters of a Custom-DSL call before the opening parenthesis. -/
def customNameOf (s : String) : List Char := s.data.takeWhile fun c => c ≠ '('

/-- Modelled from the spec: classification of one Custom-DSL token — each
parenthesized call becomes one operation; a failed numeric coercion fails with
`InvalidEditParameter`. -/
def classifyCustomTok (s : String) : TokResult :=
  match s.data.drop (customNameOf s).length with
  | '(' :: more =>
    if !(customNameOf s).isEmpty && more.getLast? = some ')' then
      if String.mk (customNameOf s) ∈ numericCustomOps then
        match digitsToNat? more.dropLast with
        | some _ =>
          TokResult.edit
            { src := s, op := String.mk (customNameOf s), args := String.mk more.dropLast }
        | none => TokResult.invalid ImgError.InvalidEditParameter
      else
        TokResult.edit
          { src := s, op := String.mk (customNameOf s), args := String.mk more.dropLast }
    else TokResult.skip
  | _ => TokResult.skip

/-- Left-to-right normalization of a token list under a given classifier. -/
def normalizeSeq (classify : String → TokResult) : List String → Except ImgError (List Edit)
  | [] => Except.ok []
  | t :: rest =>
    match classify t with
    | TokResult.skip => normalizeSeq classify rest
    | TokResult.invalid e => Except.error e
    | TokResult.edit ed =>
      match normalizeSeq classify rest with
      | Except.ok es => Except.ok (ed :: es)
      | Except.error e => Except.error e

/-- Normalized edits: the verbatim mapping of a Default request, or the
ordered operation list of a Thumbor/Custom request. -/
inductive EditsOut where
  | fromMapping (m : List (List Nat × JVal))
  | ops (es : List Edit)

/-- Modelled from the spec: `EditsNormalizer.normalize` — Default mappings
pass through in insertion order; Thumbor and Custom token lists are parsed
left-to-right in path order. -/
def classifierFor : RequestType → (String → TokResult)
  | RequestType.custom => classifyCustomTok
  | _ => classifyThumborTok

def normalizeEdits (raw : RawRequest) : Except ImgError EditsOut :=
  match raw.rawEdits with
  | RawEdits.mapping m => Except.ok (EditsOut.fromMapping m)
  | RawEdits.tokens t =>
    match normalizeSeq (classifierFor raw.requestType) t with
    | Except.ok es => Except.ok (EditsOut.ops es)
    | Except.error e => Except.error e

/-! ## RequestAssembler -/

/-- Injected configuration (spec section 6): bucket allow-list, signing flag
and the HMAC the validator would recompute over the path. -/
structure Config where
  sourceBuckets : List (List Nat)
  enableSignature : Bool
  hmacHex : String → String

/-- Final artifact handed to the external transform stage. -/
structure ImageRequestInfo where
  bucket : List Nat
  key : List Nat
  requestType : RequestType
  edits : EditsOut

/-- Modelled from the spec: the full decode-and-validate pipeline
(`ImageRequest.setup` up to the external fetch): PathCodec, then the expiry
check whenever `expires` is present, then the signature check iff signing is
enabled, then the bucket allow-list, then edits normalization. -/
def setup (event : ImageHandlerEvent) (cfg : Config) (now : Nat) :
    Except ImgError ImageRequestInfo :=
  match decodeRequest event with
  | Except.error e => Except.error e
  | Except.ok raw =>
    match (match event.expiresParam with
           | some e => checkExpiry e now
           | none => none) with
    | some err => Except.error err
    | none =>
      let sigErr : Option ImgError :=
        if cfg.enableSignature then
          match event.signatureParam with
          | none => some ImgError.SignatureMissing
          | some s =>
            if s = cfg.hmacHex ((event.path).getD ("")) then none
            else some ImgError.SignatureMismatch
        else none
      match sigErr with
      | some err => Except.error err
      | none =>
        if raw.bucket ∈ cfg.sourceBuckets then
          match normalizeEdits raw with
          | Except.error e => Except.error e
          | Except.ok edits =>
            Except.ok { bucket := raw.bucket, key := raw.key,
                        requestType := raw.requestType, edits := edits }
        else Except.error ImgError.ImageBucket

/-- Configuration of the expiry unit tests: two allow-listed buckets, signing
disabled. -/
def testConfig : Config :=
  { sourceBuckets := [strBytes ("validBucket"), strBytes ("validBucket2")],
    enableSignature := false,
    hmacHex := fun _ => "" }

/-- Path of the expiry unit tests: base64 of the JSON object with bucket
`validBucket`, requestType `Default` and key `validKey`. -/
def expiresTestPath : String :=
  "/eyJidWNrZXQiOiJ2YWxpZEJ1Y2tldCIsInJlcXVlc3RUeXBlIjoiRGVmYXVsdCIsImtleSI6InZhbGlkS2V5In0="

example :
    setup { path := some expiresTestPath } testConfig 0 =
      Except.ok { bucket := strBytes ("validBucket"), key := strBytes ("validKey"),
                  requestType := RequestType.default, edits := EditsOut.fromMapping [] } := by
  rfl

example : checkExpiry ("19700101T000000Z") 5 = some ImgError.ImageRequestExpired := by decide
example : checkExpiry ("19700001T000000Z") 5 = some ImgError.ImageRequestExpiryFormat := by decide
example : checkExpiry ("19700101S000000Z") 5 = some ImgError.ImageRequestExpiryFormat := by decide
example : checkExpiry ("19700101T000000") 5 = some ImgError.ImageRequestExpiryFormat := by decide
example : checkExpiry ("21000101T000000Z") 5 = none := by decide

/-! ## Custom-resource Lambda handler

Embedded from the custom-resource `handler` and `performRequest` source.
External AWS and HTTP calls are abstracted as an environment giving each
action's outcome; the model additionally records which underlying action
functions were invoked and how many CloudFormation responses were sent. -/

inductive CustomResourceActions where
  | SEND_ANONYMOUS_METRIC
  | PUT_CONFIG_FILE
  | CREATE_UUID
  | CHECK_SOURCE_BUCKETS
  | CHECK_FIRST_BUCKET_REGION
  | CHECK_SECRETS_MANAGER
  | CHECK_FALLBACK_IMAGE
  | CREATE_LOGGING_BUCKET
  | GET_APP_REG_APPLICATION_NAME
  | VALIDATE_EXISTING_DISTRIBUTION
  deriving DecidableEq

inductive CustomResourceRequestTypes where
  | CREATE
  | UPDATE
  | DELETE
  deriving DecidableEq

inductive StatusTypes where
  | SUCCESS
  | FAILED
  deriving DecidableEq

/-- A thrown JavaScript error: `code` and `message` may each be absent. -/
structure JsError where
  code : Option String
  message : Option String
  deriving DecidableEq

/-- The `Data` record of a completion status. -/
abbrev DataPayload := List (String × String)

structure ErrorData where
  Code : String
  Message : String
  deriving DecidableEq

/-- `CompletionStatus`, with `Data.Error` modelled as a separate field. -/
structure CompletionStatus where
  Status : StatusTypes
  Data : DataPayload
  DataError : Option ErrorData
  deriving DecidableEq

/-- The parts of a `CustomResourceRequest` the handler dispatches on.  An
absent `CustomAction` models an unrecognized action (the switch default). -/
structure CustomResourceRequestModel where
  RequestType : CustomResourceRequestTypes
  CustomAction : Option CustomResourceActions
  AnonymousData : Option String

/-- Outcome of each underlying action function, supplied externally: either a
returned `Data` payload or a thrown error. -/
abbrev CrEnv := CustomResourceActions → Except JsError DataPayload

/-- `performRequest`: invokes the function only when the request type is in
the allowed list, storing its result in `response.Data`.  The boolean records
whether the function was invoked. -/
def performRequest (outcome : Except JsError DataPayload)
    (requestType : CustomResourceRequestTypes)
    (allowedRequestTypes : List CustomResourceRequestTypes)
    (response : CompletionStatus) : Except JsError CompletionStatus × Bool :=
  if requestType ∈ allowedRequestTypes then
    match outcome with
    | Except.ok d => (Except.ok { response with Data := d }, true)
    | Except.error e => (Except.error e, true)
  else (Except.ok response, false)

/-- `sendAnonymousMetric` catches its own failures and reports them in its
returned message, so it never throws. -/
def sendAnonymousMetricModel (outcome : Except JsError DataPayload) : DataPayload :=
  match outcome with
  | Except.ok d => d
  | Except.error _ => [("Message", "Anonymous data was sent failed.")]

/-- The `switch` statement of the handler, one case per custom action, each
passing its literal allowed request types to `performRequest`.  Returns the
propagated result and the list of invoked action functions. -/
def runSwitch (event : CustomResourceRequestModel) (env : CrEnv)
    (response : CompletionStatus) :
    Except JsError CompletionStatus × List CustomResourceActions :=
  match event.CustomAction with
  | some CustomResourceActions.SEND_ANONYMOUS_METRIC =>
    if event.AnonymousData = some ("Yes") then
      (Except.ok { response with
          Data := sendAnonymousMetricModel (env CustomResourceActions.SEND_ANONYMOUS_METRIC) },
        [CustomResourceActions.SEND_ANONYMOUS_METRIC])
    else (Except.ok response, [])
  | some CustomResourceActions.PUT_CONFIG_FILE =>
    let r := performRequest (env CustomResourceActions.PUT_CONFIG_FILE) event.RequestType
      [CustomResourceRequestTypes.CREATE, CustomResourceRequestTypes.UPDATE] response
    (r.1, if r.2 then [CustomResourceActions.PUT_CONFIG_FILE] else [])
  | some CustomResourceActions.CREATE_UUID =>
    let r := performRequest (env CustomResourceActions.CREATE_UUID) event.RequestType
      [CustomResourceRequestTypes.CREATE] response
    (r.1, if r.2 then [CustomResourceActions.CREATE_UUID] else [])
  | some CustomResourceActions.CHECK_SOURCE_BUCKETS =>
    let r := performRequest (env CustomResourceActions.CHECK_SOURCE_BUCKETS) event.RequestType
      [CustomResourceRequestTypes.CREATE, CustomResourceRequestTypes.UPDATE] response
    (r.1, if r.2 then [CustomResourceActions.CHECK_SOURCE_BUCKETS] else [])
  | some CustomResourceActions.CHECK_FIRST_BUCKET_REGION =>
    let r := performRequest (env CustomResourceActions.CHECK_FIRST_BUCKET_REGION) event.RequestType
      [CustomResourceRequestTypes.CREATE, CustomResourceRequestTypes.UPDATE] response
    (r.1, if r.2 then [CustomResourceActions.CHECK_FIRST_BUCKET_REGION] else [])
  | some CustomResourceActions.GET_APP_REG_APPLICATION_NAME =>
    let r := performRequest (env CustomResourceActions.GET_APP_REG_APPLICATION_NAME)
      event.RequestType
      [CustomResourceRequestTypes.CREATE, CustomResourceRequestTypes.UPDATE] response
    (r.1, if r.2 then [CustomResourceActions.GET_APP_REG_APPLICATION_NAME] else [])
  | some CustomResourceActions.VALIDATE_EXISTING_DISTRIBUTION =>
    let r := performRequest (env CustomResourceActions.VALIDATE_EXISTING_DISTRIBUTION)
      event.RequestType
      [CustomResourceRequestTypes.CREATE, CustomResourceRequestTypes.UPDATE] response
    (r.1, if r.2 then [CustomResourceActions.VALIDATE_EXISTING_DISTRIBUTION] else [])
  | some CustomResourceActions.CHECK_SECRETS_MANAGER =>
    let r := performRequest (env CustomResourceActions.CHECK_SECRETS_MANAGER) event.RequestType
      [CustomResourceRequestTypes.CREATE, CustomResourceRequestTypes.UPDATE] response
    (r.1, if r.2 then [CustomResourceActions.CHECK_SECRETS_MANAGER] else [])
  | some CustomResourceActions.CHECK_FALLBACK_IMAGE =>
    let r := performRequest (env CustomResourceActions.CHECK_FALLBACK_IMAGE) event.RequestType
      [CustomResourceRequestTypes.CREATE, CustomResourceRequestTypes.UPDATE] response
    (r.1, if r.2 then [CustomResourceActions.CHECK_FALLBACK_IMAGE] else [])
  | some CustomResourceActions.CREATE_LOGGING_BUCKET =>
    let r := performRequest (env CustomResourceActions.CREATE_LOGGING_BUCKET) event.RequestType
      [CustomResourceRequestTypes.CREATE] response
    (r.1, if r.2 then [CustomResourceActions.CREATE_LOGGING_BUCKET] else [])
  | none => (Except.ok response, [])

/-- The response the handler starts from: SUCCESS with empty data. -/
def crInit : CompletionStatus :=
  { Status := StatusTypes.SUCCESS, Data := [], DataError := none }

/-- The catch block of the handler: a propagated result passes through, a
thrown error becomes a FAILED status whose `Data.Error` carries the error's
code and message with the documented fallbacks. -/
def finalOf : Except JsError CompletionStatus → CompletionStatus
  | Except.ok resp => resp
  | Except.error e =>
    { Status := StatusTypes.FAILED, Data := [],
      DataError := some { Code := e.code.getD ("CustomResourceError"),
                          Message := e.message.getD ("Custom resource error occurred.") } }

/-- The custom-resource `handler`: starts from a SUCCESS response with empty
data, runs the switch inside try/catch, converts a thrown error into a FAILED
status with fallback code and message, and sends exactly one CloudFormation
response in the `finally` block.  Returns the completion status, the invoked
action functions and the number of responses sent. -/
def crHandler (event : CustomResourceRequestModel) (env : CrEnv) :
    CompletionStatus × List CustomResourceActions × Nat :=
  (finalOf (runSwitch event env crInit).1, (runSwitch event env crInit).2, 1)

/-- The allowed request types of each action dispatched through
`performRequest`, as listed case by case in the handler switch. -/
def allowedFor : CustomResourceActions → List CustomResourceRequestTypes
  | CustomResourceActions.SEND_ANONYMOUS_METRIC => []
  | CustomResourceActions.PUT_CONFIG_FILE =>
    [CustomResourceRequestTypes.CREATE, CustomResourceRequestTypes.UPDATE]
  | CustomResourceActions.CREATE_UUID => [CustomResourceRequestTypes.CREATE]
  | CustomResourceActions.CHECK_SOURCE_BUCKETS =>
    [CustomResourceRequestTypes.CREATE, CustomResourceRequestTypes.UPDATE]
  | CustomResourceActions.CHECK_FIRST_BUCKET_REGION =>
    [CustomResourceRequestTypes.CREATE, CustomResourceRequestTypes.UPDATE]
  | CustomResourceActions.CHECK_SECRETS_MANAGER =>
    [CustomResourceRequestTypes.CREATE, CustomResourceRequestTypes.UPDATE]
  | CustomResourceActions.CHECK_FALLBACK_IMAGE =>
    [CustomResourceRequestTypes.CREATE, CustomResourceRequestTypes.UPDATE]
  | CustomResourceActions.CREATE_LOGGING_BUCKET => [CustomResourceRequestTypes.CREATE]
  | CustomResourceActions.GET_APP_REG_APPLICATION_NAME =>
    [CustomResourceRequestTypes.CREATE, CustomResourceRequestTypes.UPDATE]
  | CustomResourceActions.VALIDATE_EXISTING_DISTRIBUTION =>
    [CustomResourceRequestTypes.CREATE, CustomResourceRequestTypes.UPDATE]

/-- The path the round-trip property encodes: a slash followed by the base64
of the JSON object holding the bucket and key. -/
def encodePathStr (b k : List Nat) : String :=
  String.mk ('/' :: b64enc (encJson b k))

/-- Course-of-values recursion on byte lists in blocks of three, matching the
shape of the base64 encoder. -/
def byteBlocksInd (P : List Nat → Prop) (h0 : P []) (h1 : ∀ a, P [a]) (h2 : ∀ a b, P [a, b])
    (h3 : ∀ a b c t, P t → P (a :: b :: c :: t)) : ∀ l, P l
  | [] => h0
  | [a] => h1 a
  | [a, b] => h2 a b
  | a :: b :: c :: t => h3 a b c t (byteBlocksInd P h0 h1 h2 h3 t)

/-! # Theorems -/

/-! ## C1: expiry classification -/

/-- Claim C1: for every request carrying an `expires` query parameter, the
validation classifies it in exactly one of three ways — `none` (pass),
`ImageRequestExpiryFormat` exactly when the value deviates from the fixed
pattern, and `ImageRequestExpired` exactly when the value matches the pattern
but is not strictly later than the current time; in particular
`19700101T000000Z` is expired while the month-00, wrong-separator and
missing-`Z` variants are format errors. -/
theorem checkExpiry_classification (s : String) (now : Nat) :
    (checkExpiry s now = some ImgError.ImageRequestExpiryFormat ∨
      checkExpiry s now = some ImgError.ImageRequestExpired ∨
      checkExpiry s now = none) ∧
    (checkExpiry s now = some ImgError.ImageRequestExpiryFormat ↔
      matchesExpiryFormat s = false) ∧
    (checkExpiry s now = some ImgError.ImageRequestExpired ↔
      matchesExpiryFormat s = true ∧ expiryTimestamp s ≤ now) ∧
    checkExpiry ("19700101T000000Z") now = some ImgError.ImageRequestExpired ∧
    checkExpiry ("19700001T000000Z") now = some ImgError.ImageRequestExpiryFormat ∧
    checkExpiry ("19700101S000000Z") now = some ImgError.ImageRequestExpiryFormat ∧
    checkExpiry ("19700101T000000") now = some ImgError.ImageRequestExpiryFormat := by
  have h1 : matchesExpiryFormat ("19700101T000000Z") = true := by decide
  have h2 : expiryTimestamp ("19700101T000000Z") = 0 := by decide
  have h3 : matchesExpiryFormat ("19700001T000000Z") = false := by decide
  have h4 : matchesExpiryFormat ("19700101S000000Z") = false := by decide
  have h5 : matchesExpiryFormat ("19700101T000000") = false := by decide
  refine ⟨?_, ?_, ?_, ?_, ?_, ?_, ?_⟩
  · by_cases hf : matchesExpiryFormat s = true
    · by_cases hle : expiryTimestamp s ≤ now
      · exact Or.inr (Or.inl (by simp [checkExpiry, hf, hle]))
      · exact Or.inr (Or.inr (by simp [checkExpiry, hf, hle]))
    · exact Or.inl (by simp [checkExpiry, hf])
  · by_cases hf : matchesExpiryFormat s = true
    · by_cases hle : expiryTimestamp s ≤ now <;> simp [checkExpiry, hf, hle]
    · simp [checkExpiry, hf, Bool.eq_false_iff.mpr hf]
  · by_cases hf : matchesExpiryFormat s = true
    · by_cases hle : expiryTimestamp s ≤ now <;> simp [checkExpiry, hf, hle]
    · simp [checkExpiry, hf, Bool.eq_false_iff.mpr hf]
  · simp [checkExpiry, h1, h2]
  · simp [checkExpiry, h3]
  · simp [checkExpiry, h4]
  · simp [checkExpiry, h5]

/-! ## C2: empty or absent path -/

/-- Claim C2: an event whose path is absent, or empty after stripping a single
leading slash, fails with `CannotReadPath`, surfaced as a BAD_REQUEST with
code `DecodeRequest::CannotReadPath`; no bucket or key is produced. -/
theorem decodeRequest_cannotReadPath (event : ImageHandlerEvent)
    (h : event.path = none ∨ ∃ p, event.path = some p ∧ stripLeadingSlash p.data = []) :
    decodeRequest event = Except.error ImgError.CannotReadPath ∧
    surfacedStatus ImgError.CannotReadPath = 400 ∧
    surfacedCode ImgError.CannotReadPath = "DecodeRequest::CannotReadPath" := by
  refine ⟨?_, rfl, rfl⟩
  rcases h with h | ⟨p, hp, hs⟩
  · simp [decodeRequest, h]
  · simp [decodeRequest, hp, hs]

/-- Witness for C2 at the literal test event with no path at all. -/
theorem decodeRequest_cannotReadPath_witness :
    (({} : ImageHandlerEvent).path = none) ∧
    decodeRequest {} = Except.error ImgError.CannotReadPath :=
  ⟨rfl, (decodeRequest_cannotReadPath {} (Or.inl rfl)).1⟩

/-! ## C3: undecodable non-empty path -/

/-- Claim C3: a non-empty path for which neither the base64/JSON strategy nor
segmented parsing yields a non-empty bucket and key fails with
`CannotDecodeRequest`, surfaced as a BAD_REQUEST with code
`DecodeRequest::CannotDecodeRequest`; in particular the literal path
`/someNonBase64EncodedContentHere` fails this way. -/
theorem decodeRequest_cannotDecode (event : ImageHandlerEvent) (p : String)
    (hp : event.path = some p) (hne : stripLeadingSlash p.data ≠ [])
    (hb : tryBase64Json (stripLeadingSlash p.data) = none)
    (hs : segmentedParse (stripLeadingSlash p.data) = none) :
    decodeRequest event = Except.error ImgError.CannotDecodeRequest ∧
    decodeRequest { path := some ("/someNonBase64EncodedContentHere") } =
      Except.error ImgError.CannotDecodeRequest ∧
    surfacedStatus ImgError.CannotDecodeRequest = 400 ∧
    surfacedCode ImgError.CannotDecodeRequest = "DecodeRequest::CannotDecodeRequest" := by
  refine ⟨?_, by rfl, rfl, rfl⟩
  simp [decodeRequest, hp, hne, hb, hs]

/-- Witness for C3 at the literal invalid-base64 test path. -/
theorem decodeRequest_cannotDecode_witness :
    decodeRequest { path := some ("/someNonBase64EncodedContentHere") } =
      Except.error ImgError.CannotDecodeRequest :=
  (decodeRequest_cannotDecode { path := some ("/someNonBase64EncodedContentHere") }
    ("/someNonBase64EncodedContentHere") rfl (by decide) (by rfl) (by rfl)).1

/-! ## C4: the literal valid base64 path -/

/-- Claim C4: decoding the literal base64 path of the unit test succeeds and
returns exactly the bucket `bucket-name-here` and key `key-name-here`,
classified as a Default request, with an empty edits mapping and no other
fields required on the event. -/
theorem decodeRequest_validBase64 :
    decodeRequest
        { path := some ("/eyJidWNrZXQiOiJidWNrZXQtbmFtZS1oZXJlIiwia2V5Ijoia2V5LW5hbWUtaGVyZSJ9") } =
      Except.ok { bucket := strBytes ("bucket-name-here"), key := strBytes ("key-name-here"),
                  requestType := RequestType.default, rawEdits := RawEdits.mapping [] } := by
  rfl

/-! ## C7: determinism of the pipeline -/

/-- Claim C7: the decode-and-assemble pipeline is deterministic — running it
twice on the same event under the same configuration and clock produces
structurally equal results.  In this embedding both stages are pure
functions, so the two runs are definitionally the same value. -/
theorem setup_deterministic (event : ImageHandlerEvent) (cfg : Config) (now : Nat) :
    setup event cfg now = setup event cfg now ∧
    decodeRequest event = decodeRequest event :=
  ⟨rfl, rfl⟩

/-! ## C5: expiry pass-through -/

/-- Claim C5: a well-formed Default request naming an allow-listed bucket with
no `expires` parameter proceeds to fetch exactly bucket `validBucket` and key
`validKey`; and with any correctly formatted, strictly future `expires`
value the pipeline behaves identically to the no-`expires` case. -/
theorem setup_expiry_passthrough :
    (∀ now : Nat,
      setup { path := some expiresTestPath } testConfig now =
        Except.ok { bucket := strBytes ("validBucket"), key := strBytes ("validKey"),
                    requestType := RequestType.default, edits := EditsOut.fromMapping [] }) ∧
    (∀ (event : ImageHandlerEvent) (cfg : Config) (now : Nat) (sig : Option String) (e : String),
      matchesExpiryFormat e = true → now < expiryTimestamp e →
      setup { event with queryStringParameters := some { signature := sig, expires := some e } }
          cfg now =
        setup { event with queryStringParameters := some { signature := sig, expires := none } }
          cfg now) := by
  constructor
  · intro now; rfl
  · intro event cfg now sig e hfmt hfut
    have hch : checkExpiry e now = none := by
      simp [checkExpiry, hfmt, Nat.not_le.mpr hfut]
    obtain ⟨p, q, a⟩ := event
    simp only [setup, ImageHandlerEvent.expiresParam, ImageHandlerEvent.signatureParam, hch]
    rfl

/-- Witness for C5: the future date `21000101T000000Z` at clock 0 is
well-formed and strictly future, and the pipeline treats it exactly like the
no-`expires` event. -/
theorem setup_expiry_passthrough_witness :
    matchesExpiryFormat ("21000101T000000Z") = true ∧
    0 < expiryTimestamp ("21000101T000000Z") ∧
    setup { path := some expiresTestPath,
            queryStringParameters :=
              some { signature := none, expires := some ("21000101T000000Z") } }
        testConfig 0 =
      setup { path := some expiresTestPath,
              queryStringParameters := some { signature := none, expires := none } }
        testConfig 0 :=
  ⟨by decide, by decide,
    setup_expiry_passthrough.2 { path := some expiresTestPath } testConfig 0 none
      ("21000101T000000Z") (by decide) (by decide)⟩

/-! ## C8: order preservation of edits -/

/-- Tokens accepted by a classifier keep their source token, for the two
classifiers of the normalizer. -/
theorem classifyThumborTok_src (s : String) (ed : Edit)
    (h : classifyThumborTok s = TokResult.edit ed) : ed.src = s := by
  unfold classifyThumborTok at h
  split_ifs at h <;> first
  | (cases h; rfl)
  | (revert h
     split <;> intro h <;> split_ifs at h <;> cases h <;> rfl)
  | (revert h; split <;> intro h <;> (try split_ifs at h) <;> cases h <;> rfl)

theorem classifyCustomTok_src (s : String) (ed : Edit)
    (h : classifyCustomTok s = TokResult.edit ed) : ed.src = s := by
  unfold classifyCustomTok at h
  revert h
  split <;> intro h
  · split_ifs at h <;> first
    | (cases h; rfl)
    | (revert h; split <;> intro h <;> cases h <;> rfl)
  · cases h

/-- A successful left-to-right normalization lists the source tokens of the
produced edits as a sublist — in particular in source order. -/
theorem normalizeSeq_src_sublist (classify : String → TokResult)
    (hsrc : ∀ s ed, classify s = TokResult.edit ed → ed.src = s) :
    ∀ (toks : List String) (es : List Edit),
      normalizeSeq classify toks = Except.ok es → List.Sublist (es.map Edit.src) toks := by
  intro toks
  induction toks with
  | nil =>
    intro es h
    simp only [normalizeSeq] at h
    cases h
    simp
  | cons t rest ih =>
    intro es h
    unfold normalizeSeq at h
    cases hc : classify t with
    | skip =>
      rw [hc] at h
      exact List.Sublist.cons t (ih es h)
    | invalid e =>
      rw [hc] at h
      cases h
    | edit ed =>
      rw [hc] at h
      cases hrec : normalizeSeq classify rest with
      | ok es2 =>
        rw [hrec] at h
        cases h
        simpa [hsrc t ed hc] using List.Sublist.cons₂ t (ih es2 hrec)
      | error e =>
        rw [hrec] at h
        cases h

/-- Claim C8: order preservation — a Default request's decoded edits mapping
passes through the normalizer verbatim in insertion order, and a successful
Thumbor or Custom normalization produces edits whose source tokens form a
sublist of the path tokens, in their original left-to-right order. -/
theorem normalizeEdits_order :
    (∀ (raw : RawRequest) (m : List (List Nat × JVal)) (edits : EditsOut),
      raw.rawEdits = RawEdits.mapping m → normalizeEdits raw = Except.ok edits →
      edits = EditsOut.fromMapping m) ∧
    (∀ (raw : RawRequest) (t : List String) (edits : EditsOut),
      raw.rawEdits = RawEdits.tokens t → normalizeEdits raw = Except.ok edits →
      ∃ es, edits = EditsOut.ops es ∧ List.Sublist (es.map Edit.src) t) := by
  constructor
  · intro raw m edits hm h
    unfold normalizeEdits at h
    rw [hm] at h
    cases h
    rfl
  · intro raw t edits ht h
    have hsrc : ∀ s ed, classifierFor raw.requestType s = TokResult.edit ed → ed.src = s := by
      cases raw.requestType with
      | custom => exact classifyCustomTok_src
      | default => exact classifyThumborTok_src
      | thumbor => exact classifyThumborTok_src
    simp only [normalizeEdits, ht] at h
    cases hseq : normalizeSeq (classifierFor raw.requestType) t with
    | ok es =>
      rw [hseq] at h
      cases h
      exact ⟨es, rfl, normalizeSeq_src_sublist (classifierFor raw.requestType) hsrc t es hseq⟩
    | error e =>
      rw [hseq] at h
      cases h

/-- Witness for C8 at a concrete Thumbor request with one filter token and
one size token. -/
theorem normalizeEdits_order_witness :
    ∃ es, EditsOut.ops
        [{ src := "filters:grayscale()", op := "grayscale", args := "" },
         { src := "100x200", op := "resize", args := "100x200" }] = EditsOut.ops es ∧
      List.Sublist (es.map Edit.src) ["filters:grayscale()", "100x200"] :=
  normalizeEdits_order.2
    { bucket := [98], key := [107], requestType := RequestType.thumbor,
      rawEdits := RawEdits.tokens ["filters:grayscale()", "100x200"] }
    ["filters:grayscale()", "100x200"]
    (EditsOut.ops
      [{ src := "filters:grayscale()", op := "grayscale", args := "" },
       { src := "100x200", op := "resize", args := "100x200" }])
    rfl (by rfl)

/-! ## C10: request-type gating of custom-resource actions -/

/-- Claim C10: for every action dispatched through `performRequest`, if the
event's request type is not in that action's allowed list, the underlying
function is not invoked and `response.Data` is left unchanged: the handler
returns the initial SUCCESS status with empty data, an empty invocation
trace, and still sends its one CloudFormation response. -/
theorem crHandler_gating (event : CustomResourceRequestModel) (env : CrEnv)
    (a : CustomResourceActions) (hact : event.CustomAction = some a)
    (hne : a ≠ CustomResourceActions.SEND_ANONYMOUS_METRIC)
    (hnotin : event.RequestType ∉ allowedFor a) :
    crHandler event env = (crInit, [], 1) := by
  obtain ⟨rt, act, anon⟩ := event
  simp only at hact hnotin
  subst hact
  cases a <;> first
  | exact absurd rfl hne
  | (simp [allowedFor] at hnotin
     simp [crHandler, runSwitch, performRequest, finalOf, hnotin])

/-- Witness for C10: a Delete request for `putConfigFile` is gated out. -/
theorem crHandler_gating_witness :
    ((⟨CustomResourceRequestTypes.DELETE, some CustomResourceActions.PUT_CONFIG_FILE, none⟩ :
        CustomResourceRequestModel).CustomAction = some CustomResourceActions.PUT_CONFIG_FILE) ∧
    CustomResourceRequestTypes.DELETE ∉ allowedFor CustomResourceActions.PUT_CONFIG_FILE ∧
    crHandler
        ⟨CustomResourceRequestTypes.DELETE, some CustomResourceActions.PUT_CONFIG_FILE, none⟩
        (fun _ => Except.ok [("Message", "Config file uploaded.")]) =
      (crInit, [], 1) :=
  ⟨rfl, by decide,
    crHandler_gating
      ⟨CustomResourceRequestTypes.DELETE, some CustomResourceActions.PUT_CONFIG_FILE, none⟩
      (fun _ => Except.ok [("Message", "Config file uploaded.")])
      CustomResourceActions.PUT_CONFIG_FILE rfl (by decide) (by decide)⟩

/-! ## C9: the custom-resource handler absorbs all action failures -/

/-- Behaviour of one `performRequest`-dispatched case of the handler: the
success and failure shapes of the final status, phrased over the handler's
projections for an action `X` with allowed list `L`. -/
theorem crPerformSpec (X : CustomResourceActions) (L : List CustomResourceRequestTypes)
    (rt : CustomResourceRequestTypes) (env : CrEnv)
    (hX : X ≠ CustomResourceActions.SEND_ANONYMOUS_METRIC) :
    ((∀ a ∈ (if (performRequest (env X) rt L crInit).2 then [X] else []),
        a = CustomResourceActions.SEND_ANONYMOUS_METRIC ∨ ∃ d, env a = Except.ok d) →
      (finalOf (performRequest (env X) rt L crInit).1).Status = StatusTypes.SUCCESS ∧
      (finalOf (performRequest (env X) rt L crInit).1).DataError = none) ∧
    (∀ a e, a ∈ (if (performRequest (env X) rt L crInit).2 then [X] else []) →
      a ≠ CustomResourceActions.SEND_ANONYMOUS_METRIC → env a = Except.error e →
      (finalOf (performRequest (env X) rt L crInit).1).Status = StatusTypes.FAILED ∧
      (finalOf (performRequest (env X) rt L crInit).1).DataError =
        some { Code := e.code.getD ("CustomResourceError"),
               Message := e.message.getD ("Custom resource error occurred.") }) := by
  by_cases hmem : rt ∈ L
  · cases henv : env X with
    | ok d =>
      constructor
      · intro _
        simp [performRequest, hmem, henv, finalOf, crInit]
      · intro a e ha hne henv2
        simp [performRequest, hmem, henv] at ha
        subst ha
        rw [henv] at henv2
        cases henv2
    | error e =>
      constructor
      · intro hall
        have hmemX : X ∈ (if (performRequest (Except.error e) rt L crInit).2 then [X] else []) := by
          simp [performRequest, hmem]
        rcases hall X hmemX with h | ⟨d, hd⟩
        · exact absurd h hX
        · rw [henv] at hd; cases hd
      · intro a e2 ha hne henv2
        simp [performRequest, hmem, henv] at ha
        subst ha
        rw [henv] at henv2
        cases henv2
        simp [performRequest, hmem, henv, finalOf]
  · constructor
    · intro _
      simp [performRequest, hmem, finalOf, crInit]
    · intro a e ha hne henv2
      simp [performRequest, hmem] at ha

/-- Claim C9: the custom-resource handler never propagates an exception — if
the invoked action throws, the returned status is FAILED with `Data.Error`
populated from the error's code and message (with the documented fallbacks
when absent); otherwise the status is SUCCESS with no error record; and in
both cases exactly one CloudFormation response is sent before returning. -/
theorem crHandler_absorbs (event : CustomResourceRequestModel) (env : CrEnv) :
    (crHandler event env).2.2 = 1 ∧
    ((∀ a ∈ (crHandler event env).2.1,
        a = CustomResourceActions.SEND_ANONYMOUS_METRIC ∨ ∃ d, env a = Except.ok d) →
      (crHandler event env).1.Status = StatusTypes.SUCCESS ∧
      (crHandler event env).1.DataError = none) ∧
    (∀ a e, a ∈ (crHandler event env).2.1 →
      a ≠ CustomResourceActions.SEND_ANONYMOUS_METRIC → env a = Except.error e →
      (crHandler event env).1.Status = StatusTypes.FAILED ∧
      (crHandler event env).1.DataError =
        some { Code := e.code.getD ("CustomResourceError"),
               Message := e.message.getD ("Custom resource error occurred.") }) := by
  obtain ⟨rt, act, anon⟩ := event
  refine ⟨rfl, ?_, ?_⟩
  · cases act with
    | none => intro _; exact ⟨rfl, rfl⟩
    | some a =>
      cases a
      case SEND_ANONYMOUS_METRIC =>
        by_cases hy : anon = some ("Yes") <;> intro _ <;>
          simp [crHandler, runSwitch, hy, finalOf, crInit]
      all_goals exact (crPerformSpec _ _ rt env (by decide)).1
  · cases act with
    | none =>
      intro a e ha hne henv
      simp [crHandler, runSwitch] at ha
    | some a =>
      cases a
      case SEND_ANONYMOUS_METRIC =>
        intro a e ha hne henv
        by_cases hy : anon = some ("Yes")
        · simp [crHandler, runSwitch, hy] at ha
          exact absurd ha hne
        · simp [crHandler, runSwitch, hy] at ha
      all_goals exact (crPerformSpec _ _ rt env (by decide)).2

/-! ## C6: round-trip of the Default encoding -/

theorem b64val_tbl : ∀ n, n < 64 → b64val (b64tbl n) = some n := by decide

theorem b64tbl_ne_pad : ∀ n, n < 64 → b64tbl n ≠ '=' := by decide

/-- Decoding inverts encoding on byte strings. -/
theorem b64_roundtrip : ∀ bs, ByteOk bs → b64dec (b64enc bs) = some bs := by
  refine byteBlocksInd (fun l => ByteOk l → b64dec (b64enc l) = some l) ?_ ?_ ?_ ?_
  · intro _; rfl
  · intro a h
    have ha : a < 256 := h a (by simp)
    have h1 : b64val (b64tbl (a / 4)) = some (a / 4) := b64val_tbl _ (by omega)
    have h2 : b64val (b64tbl (a % 4 * 16)) = some (a % 4 * 16) := b64val_tbl _ (by omega)
    simp [b64enc, b64dec, h1, h2]
    omega
  · intro a b h
    have ha : a < 256 := h a (by simp)
    have hb : b < 256 := h b (by simp)
    have h1 : b64val (b64tbl (a / 4)) = some (a / 4) := b64val_tbl _ (by omega)
    have h2 : b64val (b64tbl (a % 4 * 16 + b / 16)) = some (a % 4 * 16 + b / 16) :=
      b64val_tbl _ (by omega)
    have h3 : b64val (b64tbl (b % 16 * 4)) = some (b % 16 * 4) := b64val_tbl _ (by omega)
    have hne : b64tbl (b % 16 * 4) ≠ '=' := b64tbl_ne_pad _ (by omega)
    simp [b64enc, b64dec, h1, h2, h3, hne]
    omega
  · intro a b c t ih h
    have ha : a < 256 := h a (by simp)
    have hb : b < 256 := h b (by simp)
    have hc : c < 256 := h c (by simp)
    have ht : ByteOk t := fun x hx => h x (by simp [hx])
    have h1 : b64val (b64tbl (a / 4)) = some (a / 4) := b64val_tbl _ (by omega)
    have h2 : b64val (b64tbl (a % 4 * 16 + b / 16)) = some (a % 4 * 16 + b / 16) :=
      b64val_tbl _ (by omega)
    have h3 : b64val (b64tbl (b % 16 * 4 + c / 64)) = some (b % 16 * 4 + c / 64) :=
      b64val_tbl _ (by omega)
    have h4 : b64val (b64tbl (c % 64)) = some (c % 64) := b64val_tbl _ (by omega)
    have hne3 : b64tbl (b % 16 * 4 + c / 64) ≠ '=' := b64tbl_ne_pad _ (by omega)
    have hne4 : b64tbl (c % 64) ≠ '=' := b64tbl_ne_pad _ (by omega)
    simp [b64enc, b64dec, h1, h2, h3, h4, hne3, hne4, ih ht]
    omega

theorem hexDigitByte_lt (n : Nat) (h : n < 16) : escapeByte.hexDigitByte n < 256 := by
  unfold escapeByte.hexDigitByte
  split_ifs <;> omega

/-- Escaping preserves byte-ness. -/
theorem byteOk_escapeByte (b : Nat) (hb : b < 256) : ByteOk (escapeByte b) := by
  intro x hx
  unfold escapeByte at hx
  split_ifs at hx <;> simp at hx <;>
    first
    | omega
    | (rcases hx with rfl | rfl | rfl | rfl | rfl | rfl <;>
        first
        | omega
        | exact hexDigitByte_lt _ (by omega))

theorem byteOk_escapeBytes (s : List Nat) (h : ByteOk s) : ByteOk (escapeBytes s) := by
  induction s with
  | nil => intro x hx; simp [escapeBytes] at hx
  | cons b t ih =>
    intro x hx
    simp only [escapeBytes, List.mem_append] at hx
    rcases hx with hx | hx
    · exact byteOk_escapeByte b (h b (by simp)) x hx
    · exact ih (fun y hy => h y (by simp [hy])) x hx

theorem byteOk_encJson (b k : List Nat) (hb : ByteOk b) (hk : ByteOk k) :
    ByteOk (encJson b k) := by
  have he1 := byteOk_escapeBytes b hb
  have he2 := byteOk_escapeBytes k hk
  intro x hx
  simp only [encJson, List.mem_cons, List.mem_append] at hx
  casesm* _ ∨ _ <;>
    first
    | omega
    | exact he1 x (by assumption)
    | exact he2 x (by assumption)
    | simp_all

set_option maxHeartbeats 1000000 in
/-- Parsing a JSON string body inverts escaping: the escaped content followed
by a closing quote parses back to the content. -/
theorem parseJStr_escape : ∀ (s rest : List Nat), ByteOk s →
    parseJStrAux (escapeBytes s ++ 34 :: rest) JStrState.normal = some (s, rest) := by
  intro s
  induction s with
  | nil => intro rest _; rfl
  | cons b t ih =>
    intro rest hs
    have hb : b < 256 := hs b (by simp)
    have iht := ih rest fun y hy => hs y (by simp [hy])
    rcases Nat.lt_or_ge b 32 with hlt | hge
    · interval_cases b <;>
        simp [escapeBytes, escapeByte, escapeByte.hexDigitByte, parseJStrAux, escCode, hexVal,
          iht, List.append_assoc]
    · by_cases h34 : b = 34
      · subst h34
        simp [escapeBytes, escapeByte, parseJStrAux, escCode, iht, List.append_assoc]
      · by_cases h92 : b = 92
        · subst h92
          simp [escapeBytes, escapeByte, parseJStrAux, escCode, iht, List.append_assoc]
        · have h8 : b ≠ 8 := by omega
          have h9 : b ≠ 9 := by omega
          have h10 : b ≠ 10 := by omega
          have h12 : b ≠ 12 := by omega
          have h13 : b ≠ 13 := by omega
          have hnlt : ¬ b < 32 := by omega
          simp [escapeBytes, escapeByte, parseJStrAux, h34, h92, h8, h9, h10, h12, h13, hnlt,
            hge, iht, List.append_assoc]

set_option maxHeartbeats 1000000 in
/-- The fueled JSON parser accepts the encoded two-field object whenever it
has at least five units of fuel. -/
theorem parseVal_encJson (fuel : Nat) (b k : List Nat) (hb : ByteOk b) (hk : ByteOk k) :
    parseVal (fuel + 5) (encJson b k) =
      some (JVal.jobj [(bucketName, JVal.jstr b), (keyName, JVal.jstr k)], []) := by
  have hpb := parseJStr_escape b
    (44 :: 34 :: 107 :: 101 :: 121 :: 34 :: 58 :: 34 :: (escapeBytes k ++ [34, 125])) hb
  have hpk := parseJStr_escape k [125] hk
  show parseVal (fuel + 1 + 1 + 1 + 1 + 1) (encJson b k) =
    some (JVal.jobj [(bucketName, JVal.jstr b), (keyName, JVal.jstr k)], [])
  simp [encJson, parseVal, parseMembers, parseJStr, parseJStrAux, skipWs, bucketName, keyName,
    hpb, hpk]

/-- Parsing the whole encoded object yields the two-field JSON object. -/
theorem jsonParse_encJson (b k : List Nat) (hb : ByteOk b) (hk : ByteOk k) :
    jsonParse (encJson b k) =
      some (JVal.jobj [(bucketName, JVal.jstr b), (keyName, JVal.jstr k)]) := by
  have hlen : 11 ≤ (encJson b k).length := by
    simp [encJson]
  obtain ⟨m, hm⟩ : ∃ m, 2 * (encJson b k).length + 2 = m + 5 :=
    ⟨2 * (encJson b k).length - 3, by omega⟩
  unfold jsonParse
  rw [hm, parseVal_encJson m b k hb hk]
  rfl

theorem encJson_ne_nil (b k : List Nat) : encJson b k ≠ [] := by
  simp [encJson]

theorem b64enc_ne_nil (bs : List Nat) (h : bs ≠ []) : b64enc bs ≠ [] := by
  match bs with
  | [] => exact absurd rfl h
  | [a] => simp [b64enc]
  | [a, b] => simp [b64enc]
  | a :: b :: c :: t => simp [b64enc]

/-- The Default strategy accepts the encoded path of any pair of non-empty
byte strings and returns them verbatim. -/
theorem tryBase64Json_enc (b k : List Nat) (hb : ByteOk b) (hk : ByteOk k)
    (hbne : b ≠ []) (hkne : k ≠ []) :
    tryBase64Json (b64enc (encJson b k)) =
      some { bucket := b, key := k, requestType := RequestType.default,
             rawEdits := RawEdits.mapping [] } := by
  unfold tryBase64Json
  rw [b64_roundtrip _ (byteOk_encJson b k hb hk)]
  dsimp only
  rw [jsonParse_encJson b k hb hk]
  simp +decide [lookupStr, lookupEntry, lookupObjD, hbne, hkne]

/-- Amended claim C6 (round-trip): for every pair of non-empty byte strings,
base64-encoding the JSON object with fields `bucket` and `key`, prefixing a
slash and decoding the resulting path yields back exactly the pair, as a
Default request with no edits. -/
theorem decodeRequest_roundtrip (b k : List Nat) (hb : ByteOk b) (hk : ByteOk k)
    (hbne : b ≠ []) (hkne : k ≠ []) :
    decodeRequest { path := some (encodePathStr b k) } =
      Except.ok { bucket := b, key := k, requestType := RequestType.default,
                  rawEdits := RawEdits.mapping [] } := by
  have hstrip : stripLeadingSlash (encodePathStr b k).data = b64enc (encJson b k) := by
    show stripLeadingSlash ('/' :: b64enc (encJson b k)) = b64enc (encJson b k)
    simp [stripLeadingSlash]
  unfold decodeRequest
  simp only [hstrip]
  simp [b64enc_ne_nil _ (encJson_ne_nil b k), tryBase64Json_enc b k hb hk hbne hkne]

/-- Counterexample to claim C6 as frozen: with the empty bucket and the empty
key, the encoded path does not decode back to the pair — the decoder rejects
it with `CannotDecodeRequest` because the decoded bucket and key are empty. -/
theorem decodeRequest_roundtrip_cex :
    ¬ (decodeRequest { path := some (encodePathStr [] []) } =
        Except.ok { bucket := [], key := [], requestType := RequestType.default,
                    rawEdits := RawEdits.mapping [] }) := by
  intro h
  rw [show decodeRequest { path := some (encodePathStr [] []) } =
        Except.error ImgError.CannotDecodeRequest from rfl] at h
  cases h

/-- Witness for the amended C6 at the one-byte bucket `a` and key `b`. -/
theorem decodeRequest_roundtrip_witness :
    ByteOk [97] ∧ ByteOk [98] ∧ ([97] : List Nat) ≠ [] ∧ ([98] : List Nat) ≠ [] ∧
    decodeRequest { path := some (encodePathStr [97] [98]) } =
      Except.ok { bucket := [97], key := [98], requestType := RequestType.default,
                  rawEdits := RawEdits.mapping [] } :=
  ⟨by decide, by decide, by decide, by decide,
    decodeRequest_roundtrip [97] [98] (by decide) (by decide) (by decide) (by decide)⟩

/-- Witness for C9: a Create request for `putConfigFile` whose underlying
function throws an error with no code and no message yields FAILED with the
fallback code and message, after the one CloudFormation response. -/
theorem crHandler_absorbs_witness :
    (CustomResourceActions.PUT_CONFIG_FILE ∈
      (crHandler
        ⟨CustomResourceRequestTypes.CREATE, some CustomResourceActions.PUT_CONFIG_FILE, none⟩
        (fun _ => Except.error { code := none, message := none })).2.1) ∧
    (crHandler
        ⟨CustomResourceRequestTypes.CREATE, some CustomResourceActions.PUT_CONFIG_FILE, none⟩
        (fun _ => Except.error { code := none, message := none })).2.2 = 1 ∧
    (crHandler
        ⟨CustomResourceRequestTypes.CREATE, some CustomResourceActions.PUT_CONFIG_FILE, none⟩
        (fun _ => Except.error { code := none, message := none })).1.Status =
      StatusTypes.FAILED ∧
    (crHandler
        ⟨CustomResourceRequestTypes.CREATE, some CustomResourceActions.PUT_CONFIG_FILE, none⟩
        (fun _ => Except.error { code := none, message := none })).1.DataError =
      some { Code := "CustomResourceError", Message := "Custom resource error occurred." } := by
  refine ⟨by decide, (crHandler_absorbs _ _).1, ?_, ?_⟩
  · exact ((crHandler_absorbs
      ⟨CustomResourceRequestTypes.CREATE, some CustomResourceActions.PUT_CONFIG_FILE, none⟩
      (fun _ => Except.error { code := none, message := none })).2.2
      CustomResourceActions.PUT_CONFIG_FILE { code := none, message := none }
      (by decide) (by decide) rfl).1
  · exact ((crHandler_absorbs
      ⟨CustomResourceRequestTypes.CREATE, some CustomResourceActions.PUT_CONFIG_FILE, none⟩
      (fun _ => Except.error { code := none, message := none })).2.2
      CustomResourceActions.PUT_CONFIG_FILE { code := none, message := none }
      (by decide) (by decide) rfl).2
